import Mathlib

/-!
Verification of the MCP-Hive proxy gateway core against its design description.

The development shallowly embeds the proxy's core logic:
* the schema compiler `ZodHelpers.scanObject` / `ZodHelpers.inferZodRawShapeFromSpec`
  (a `ZTypeDescriptor` is compiled to a `ZodSchema` term mirroring the zod
  combinators the source builds; `accepts` gives the zod validators' semantics
  over JSON-like `Value`s, parameterised by a `FormatOracle` for the regex and
  string-format primitives that live inside the zod library),
* the namespacing pair `makeNamespacedName` / `parseNamespacedName`
  (JS strings are modelled as `List Char` so that `String.indexOf` arithmetic
  is visible),
* the gateway registration flow `initializeGatewayMode` /
  `registerDiscoveryTools` / `registerServerTools` / `registerServerResources` /
  `registerServerPrompts` (the discovery and forwarding collaborators are an
  explicit environment `HiveEnv`; registrations become a list of events),
* the result normalizer `convertToSDKContent` and the tool-call handler's
  result conversion `toolCallHandlerResult`.

JS numbers are modelled as `Rat`, JS objects as association lists, and
absent/`undefined` fields as `Option`.
-/

namespace MCPHiveProxy

/-- A JSON-like runtime value (the data validators run against). -/
inductive Value where
  | vnull : Value
  | vbool : Bool → Value
  | vnum : Rat → Value
  | vstr : String → Value
  | varr : List Value → Value
  | vobj : List (String × Value) → Value

mutual

/-- Structural value equality (JS `===` on primitives, extended structurally;
literal/enum validators only ever compare primitives). -/
def veq : Value → Value → Bool
  | .vnull, .vnull => true
  | .vbool a, .vbool b => a == b
  | .vnum a, .vnum b => a == b
  | .vstr a, .vstr b => a == b
  | .varr xs, .varr ys => veqList xs ys
  | .vobj xs, .vobj ys => veqFields xs ys
  | _, _ => false

def veqList : List Value → List Value → Bool
  | [], [] => true
  | x :: xs, y :: ys => veq x y && veqList xs ys
  | _, _ => false

def veqFields : List (String × Value) → List (String × Value) → Bool
  | [], [] => true
  | (k, x) :: xs, (k', y) :: ys => k == k' && veq x y && veqFields xs ys
  | _, _ => false

end

/-- The dedicated string-format refinements of zod used by the `format` switch
in `ZodHelpers.scanObject` (lines 1031-1067 of the proxy source). -/
inductive FormatCheck where
  | email | url | uuid | datetime | date | time | ipv4 | ipv6 | ip
deriving DecidableEq

/-- Semantics of the validation primitives implemented inside the zod library
(regular-expression matching and the string-format checks).  Theorems that do
not depend on them hold for every oracle. -/
structure FormatOracle where
  regexTest : String → String → Bool
  email : String → Bool
  url : String → Bool
  uuid : String → Bool
  datetime : String → Bool
  date : String → Bool
  time : String → Bool
  ipv4 : String → Bool
  ipv6 : String → Bool
  ip : String → Bool

/-- An oracle whose primitives accept everything; used to evaluate schemas that
contain no regex/format constraint at concrete inputs. -/
def permissiveOracle : FormatOracle :=
  { regexTest := fun _ _ => true
    email := fun _ => true
    url := fun _ => true
    uuid := fun _ => true
    datetime := fun _ => true
    date := fun _ => true
    time := fun _ => true
    ipv4 := fun _ => true
    ipv6 := fun _ => true
    ip := fun _ => true }

/-- The zod schema terms `ZodHelpers.scanObject` builds: one constructor per
zod combinator the source calls (`z.literal`, `z.union`, `z.intersection`,
`z.null`, `z.record`, `z.object`, `z.tuple`, `z.array` with `.min`/`.max`,
`z.enum`, `z.string` with its chained checks, `z.number` with its chained
checks, `z.boolean`, `z.unknown`, `.nullable()`, `.optional()`,
`.describe()`). -/
inductive ZodSchema where
  | literal : Value → ZodSchema
  | union : List ZodSchema → ZodSchema
  | intersection : ZodSchema → ZodSchema → ZodSchema
  | znull : ZodSchema
  | record : ZodSchema → ZodSchema
  | object : List (String × ZodSchema) → ZodSchema
  | tuple : List ZodSchema → ZodSchema
  | array : ZodSchema → Option Nat → Option Nat → ZodSchema
  | zenum : List Value → ZodSchema
  | zstring : Option Nat → Option Nat → Option String → Option FormatCheck → ZodSchema
  | znumber : Bool → Option Rat → Option Rat → Option Rat → Option Rat → ZodSchema
  | zboolean : ZodSchema
  | unknown : ZodSchema
  | nullable : ZodSchema → ZodSchema
  | optional : ZodSchema → ZodSchema
  | describe : ZodSchema → Option String → ZodSchema

/-- JS object property lookup on an association list (first binding wins). -/
def findField (fields : List (String × Value)) (k : String) : Option Value :=
  match fields with
  | [] => none
  | (k', v) :: rest => if k' == k then some v else findField rest k

/-- One string-format refinement, interpreted by the oracle. -/
def formatPass (ω : FormatOracle) (f : FormatCheck) (s : String) : Bool :=
  match f with
  | .email => ω.email s
  | .url => ω.url s
  | .uuid => ω.uuid s
  | .datetime => ω.datetime s
  | .date => ω.date s
  | .time => ω.time s
  | .ipv4 => ω.ipv4 s
  | .ipv6 => ω.ipv6 s
  | .ip => ω.ip s

/-- The checks of a compiled `z.string()` chain: `.min`, `.max`, `.regex`,
and the single format refinement selected by the `format` switch. -/
def stringChecksPass (ω : FormatOracle) (minL maxL : Option Nat) (pat : Option String)
    (fmt : Option FormatCheck) (s : String) : Bool :=
  (match minL with | some n => decide (n ≤ s.length) | none => true)
    && (match maxL with | some n => decide (s.length ≤ n) | none => true)
    && (match pat with | some p => ω.regexTest p s | none => true)
    && (match fmt with | some f => formatPass ω f s | none => true)

/-- The checks of a compiled `z.number()` chain: `.int()` when the descriptor
kind is `integer`, and `.gte`/`.gt`/`.lte`/`.lt` bounds. -/
def numChecksPass (isInt : Bool) (hgte hgt hlte hlt : Option Rat) (q : Rat) : Bool :=
  (!isInt || decide (q.den = 1))
    && (match hgte with | some b => decide (b ≤ q) | none => true)
    && (match hgt with | some b => decide (b < q) | none => true)
    && (match hlte with | some b => decide (q ≤ b) | none => true)
    && (match hlt with | some b => decide (q < b) | none => true)

mutual

/-- Acceptance semantics of a compiled zod validator on a present value
(zod `safeParse` success).  `z.object` strips unknown keys, `z.tuple`
demands the exact length, `z.intersection` succeeds when both sides do,
`.nullable()` additionally accepts `null`, `.describe()` is transparent. -/
def accepts (ω : FormatOracle) : ZodSchema → Value → Bool
  | .literal c, v => veq c v
  | .union ss, v => anyAccepts ω ss v
  | .intersection a b, v => accepts ω a v && accepts ω b v
  | .znull, v => (match v with | .vnull => true | _ => false)
  | .record s, v =>
      (match v with
       | .vobj fields => fields.all (fun kv => accepts ω s kv.2)
       | _ => false)
  | .object shape, v =>
      (match v with
       | .vobj fields => shapeAccepts ω shape fields
       | _ => false)
  | .tuple ss, v =>
      (match v with
       | .varr xs => tupleAccepts ω ss xs
       | _ => false)
  | .array item minI maxI, v =>
      (match v with
       | .varr xs =>
           xs.all (fun x => accepts ω item x)
             && (match minI with | some n => decide (n ≤ xs.length) | none => true)
             && (match maxI with | some n => decide (xs.length ≤ n) | none => true)
       | _ => false)
  | .zenum vals, v => vals.any (fun c => veq c v)
  | .zstring minL maxL pat fmt, v =>
      (match v with
       | .vstr s => stringChecksPass ω minL maxL pat fmt s
       | _ => false)
  | .znumber isInt hgte hgt hlte hlt, v =>
      (match v with
       | .vnum q => numChecksPass isInt hgte hgt hlte hlt q
       | _ => false)
  | .zboolean, v => (match v with | .vbool _ => true | _ => false)
  | .unknown, _ => true
  | .nullable s, v => (match v with | .vnull => true | _ => accepts ω s v)
  | .optional s, v => accepts ω s v
  | .describe s _, v => accepts ω s v
termination_by structural s => s

def anyAccepts (ω : FormatOracle) : List ZodSchema → Value → Bool
  | [], _ => false
  | s :: ss, v => accepts ω s v || anyAccepts ω ss v
termination_by structural ss => ss

def tupleAccepts (ω : FormatOracle) : List ZodSchema → List Value → Bool
  | [], [] => true
  | _ :: _, [] => false
  | [], _ :: _ => false
  | s :: ss, v :: vs => accepts ω s v && tupleAccepts ω ss vs
termination_by structural ss => ss

/-- `z.object` shape check: each declared key is looked up in the value;
a present binding must satisfy its validator, a missing one must accept
`undefined` (zod marks it invalid unless the validator is optional-like). -/
def shapeAccepts (ω : FormatOracle) : List (String × ZodSchema) → List (String × Value) → Bool
  | [], _ => true
  | (k, s) :: rest, fields =>
      (match findField fields k with
       | some v => accepts ω s v
       | none => acceptsUndefined s)
        && shapeAccepts ω rest fields
termination_by structural shape => shape

/-- Whether a zod validator accepts the `undefined` produced by a missing
object key: `.optional()` and `z.unknown()` do, wrappers are transparent,
everything else rejects. -/
def acceptsUndefined : ZodSchema → Bool
  | .optional _ => true
  | .unknown => true
  | .nullable s => acceptsUndefined s
  | .describe s _ => acceptsUndefined s
  | .union ss => anyAcceptsUndefined ss
  | .intersection a b => acceptsUndefined a && acceptsUndefined b
  | _ => false
termination_by structural s => s

def anyAcceptsUndefined : List ZodSchema → Bool
  | [] => false
  | s :: ss => acceptsUndefined s || anyAcceptsUndefined ss
termination_by structural ss => ss

end

/-! ## The serialized type descriptor (`ZTypeDescriptor`, proxy source lines 813-843)

Every field of the TS interface is optional at runtime (the values come out of
`JSON.parse`), so each is an `Option`.  `enum` is declared `unknown[]` and its
members are compared with `===` by `z.enum`, so it carries `Value`s;
`additionalProperties` is `boolean | ZTypeDescriptor`. -/

inductive ZTypeDescriptor where
  | mk
    (type : Option String)
    (description : Option String)
    (enumv : Option (List Value))
    (properties : Option (List (String × ZTypeDescriptor)))
    (items : Option ZTypeDescriptor)
    (minItems : Option Nat)
    (maxItems : Option Nat)
    (prefixItems : Option (List ZTypeDescriptor))
    (anyOf : Option (List ZTypeDescriptor))
    (oneOf : Option (List ZTypeDescriptor))
    (allOf : Option (List ZTypeDescriptor))
    (nullable : Option Bool)
    (const : Option Value)
    (minLength : Option Nat)
    (maxLength : Option Nat)
    (pattern : Option String)
    (format : Option String)
    (minimum : Option Rat)
    (maximum : Option Rat)
    (exclusiveMinimum : Option Rat)
    (exclusiveMaximum : Option Rat)
    (additionalProperties : Option (Bool ⊕ ZTypeDescriptor))

namespace ZTypeDescriptor

def type : ZTypeDescriptor → Option String
  | .mk t _ _ _ _ _ _ _ _ _ _ _ _ _ _ _ _ _ _ _ _ _ => t

def description : ZTypeDescriptor → Option String
  | .mk _ d _ _ _ _ _ _ _ _ _ _ _ _ _ _ _ _ _ _ _ _ => d

def enumv : ZTypeDescriptor → Option (List Value)
  | .mk _ _ e _ _ _ _ _ _ _ _ _ _ _ _ _ _ _ _ _ _ _ => e

def properties : ZTypeDescriptor → Option (List (String × ZTypeDescriptor))
  | .mk _ _ _ p _ _ _ _ _ _ _ _ _ _ _ _ _ _ _ _ _ _ => p

def items : ZTypeDescriptor → Option ZTypeDescriptor
  | .mk _ _ _ _ i _ _ _ _ _ _ _ _ _ _ _ _ _ _ _ _ _ => i

def minItems : ZTypeDescriptor → Option Nat
  | .mk _ _ _ _ _ n _ _ _ _ _ _ _ _ _ _ _ _ _ _ _ _ => n

def maxItems : ZTypeDescriptor → Option Nat
  | .mk _ _ _ _ _ _ n _ _ _ _ _ _ _ _ _ _ _ _ _ _ _ => n

def prefixItems : ZTypeDescriptor → Option (List ZTypeDescriptor)
  | .mk _ _ _ _ _ _ _ p _ _ _ _ _ _ _ _ _ _ _ _ _ _ => p

def anyOf : ZTypeDescriptor → Option (List ZTypeDescriptor)
  | .mk _ _ _ _ _ _ _ _ a _ _ _ _ _ _ _ _ _ _ _ _ _ => a

def oneOf : ZTypeDescriptor → Option (List ZTypeDescriptor)
  | .mk _ _ _ _ _ _ _ _ _ o _ _ _ _ _ _ _ _ _ _ _ _ => o

def allOf : ZTypeDescriptor → Option (List ZTypeDescriptor)
  | .mk _ _ _ _ _ _ _ _ _ _ a _ _ _ _ _ _ _ _ _ _ _ => a

def nullable : ZTypeDescriptor → Option Bool
  | .mk _ _ _ _ _ _ _ _ _ _ _ n _ _ _ _ _ _ _ _ _ _ => n

def const : ZTypeDescriptor → Option Value
  | .mk _ _ _ _ _ _ _ _ _ _ _ _ c _ _ _ _ _ _ _ _ _ => c

def minLength : ZTypeDescriptor → Option Nat
  | .mk _ _ _ _ _ _ _ _ _ _ _ _ _ n _ _ _ _ _ _ _ _ => n

def maxLength : ZTypeDescriptor → Option Nat
  | .mk _ _ _ _ _ _ _ _ _ _ _ _ _ _ n _ _ _ _ _ _ _ => n

def pattern : ZTypeDescriptor → Option String
  | .mk _ _ _ _ _ _ _ _ _ _ _ _ _ _ _ p _ _ _ _ _ _ => p

def format : ZTypeDescriptor → Option String
  | .mk _ _ _ _ _ _ _ _ _ _ _ _ _ _ _ _ f _ _ _ _ _ => f

def minimum : ZTypeDescriptor → Option Rat
  | .mk _ _ _ _ _ _ _ _ _ _ _ _ _ _ _ _ _ m _ _ _ _ => m

def maximum : ZTypeDescriptor → Option Rat
  | .mk _ _ _ _ _ _ _ _ _ _ _ _ _ _ _ _ _ _ m _ _ _ => m

def exclusiveMinimum : ZTypeDescriptor → Option Rat
  | .mk _ _ _ _ _ _ _ _ _ _ _ _ _ _ _ _ _ _ _ m _ _ => m

def exclusiveMaximum : ZTypeDescriptor → Option Rat
  | .mk _ _ _ _ _ _ _ _ _ _ _ _ _ _ _ _ _ _ _ _ m _ => m

def additionalProperties : ZTypeDescriptor → Option (Bool ⊕ ZTypeDescriptor)
  | .mk _ _ _ _ _ _ _ _ _ _ _ _ _ _ _ _ _ _ _ _ _ a => a

/-- A descriptor with every field absent (`\x7b\x7d` after `JSON.parse`). -/
def blank : ZTypeDescriptor :=
  .mk none none none none none none none none none none none
    none none none none none none none none none none none

end ZTypeDescriptor

/-- JS `x || d` on an optional string: `undefined` and `""` are falsy. -/
def jsOrStr (o : Option String) (d : String) : String :=
  match o with
  | some s => if s = "" then d else s
  | none => d

/-- JS truthiness of an optional boolean (`if (o.nullable)`). -/
def jsTruthy (b : Option Bool) : Bool :=
  match b with
  | some b => b
  | none => false

/-- `.nullable()` is chained exactly when the descriptor's `nullable` field is
truthy (the `if (o.nullable) \x7b ... .nullable() \x7d` pattern in every
type-dispatch branch of `scanObject`). -/
def applyNullable (nul : Option Bool) (s : ZodSchema) : ZodSchema :=
  if jsTruthy nul then .nullable s else s

/-- The `switch (o.format)` of the string branch (source lines 1031-1067):
recognized formats select a zod refinement, anything else adds no check. -/
def formatCheckOfFormat (f : String) : Option FormatCheck :=
  match f with
  | "email" => some .email
  | "url" => some .url
  | "uri" => some .url
  | "uuid" => some .uuid
  | "date-time" => some .datetime
  | "datetime" => some .datetime
  | "date" => some .date
  | "time" => some .time
  | "ipv4" => some .ipv4
  | "ipv6" => some .ipv6
  | "ip" => some .ip
  | _ => none

/-- Left fold of `z.intersection` over the `allOf` branches: the source starts
from `schemas[0]` and intersects the rest in order. -/
def foldIntersection (first : ZodSchema) (rest : List ZodSchema) : ZodSchema :=
  match rest with
  | [] => first
  | s :: ss => foldIntersection (.intersection first s) ss

/-- The `const` precedence step (the source's first early return): a present
`const` compiles to a described literal, otherwise compilation falls through
to the next step. -/
def precConst (cst : Option Value) (dsc : Option String) (fallback : ZodSchema) :
    ZodSchema :=
  match cst with
  | some c => .describe (.literal c) (some (jsOrStr dsc ""))
  | none => fallback

/-- The `anyOf` / `oneOf` precedence step (both branches of the source are
identical): a non-empty list compiles to a union — degenerating to the lone
branch itself, with no describe, when there is exactly one — otherwise
compilation falls through. -/
def precUnion (c : Option (List ZodSchema)) (dsc : Option String)
    (fallback : ZodSchema) : ZodSchema :=
  match c with
  | some (s0 :: srest) =>
      (match srest with
       | [] => s0
       | _ :: _ => .describe (.union (s0 :: srest)) (some (jsOrStr dsc "")))
  | _ => fallback

/-- The `allOf` precedence step: a non-empty list compiles to a left fold of
intersections, otherwise compilation falls through. -/
def precAllOf (c : Option (List ZodSchema)) (dsc : Option String)
    (fallback : ZodSchema) : ZodSchema :=
  match c with
  | some (l0 :: lrest) => .describe (foldIntersection l0 lrest) (some (jsOrStr dsc ""))
  | _ => fallback

/-- The `object` kind branch: a record when `additionalProperties` is an
object and `properties` is absent or empty, else the shape of the compiled
properties; no `.describe` is attached in either case. -/
def kindObject (propsC : Option (List (String × ZodSchema)))
    (addC : Option (Bool ⊕ ZodSchema)) (nul : Option Bool) : ZodSchema :=
  match addC, (match propsC with | none => true | some ps => ps.isEmpty) with
  | some (Sum.inr apdC), true => applyNullable nul (.record apdC)
  | _, _ =>
      applyNullable nul (.object (match propsC with
        | some ps => ps
        | none => []))

/-- The `array` kind branch: a fixed-length tuple when `prefixItems` is
non-empty (`items`/`minItems`/`maxItems` ignored), else a list over the
compiled `items` (defaulting to `z.unknown()`) bounded by
`minItems`/`maxItems`. -/
def kindArray (pfxC : Option (List ZodSchema)) (itemC : Option ZodSchema)
    (minI maxI : Option Nat) (nul : Option Bool) (dsc : Option String) : ZodSchema :=
  match pfxC with
  | some (p0 :: prest) =>
      .describe (applyNullable nul (.tuple (p0 :: prest))) (some (jsOrStr dsc ""))
  | _ =>
      .describe
        (applyNullable nul
          (.array (match itemC with | some it => it | none => .unknown) minI maxI))
        (some (jsOrStr dsc ""))

/-- The `string` kind branch: a closed enum when `enum` is present (bypassing
every other string constraint), else a `z.string()` chain with truthy
`pattern` and recognized truthy `format` refinements. -/
def kindString (enm : Option (List Value)) (minL maxL : Option Nat)
    (pat fmt : Option String) (nul : Option Bool) (dsc : Option String) : ZodSchema :=
  match enm with
  | some vals => .describe (applyNullable nul (.zenum vals)) dsc
  | none =>
      .describe
        (applyNullable nul
          (.zstring minL maxL
            (match pat with
             | some p => if p = "" then none else some p
             | none => none)
            (match fmt with
             | some f => if f = "" then none else formatCheckOfFormat f
             | none => none)))
        dsc

/-- The type-kind dispatch that follows the four precedence steps. -/
def scanKind (ty dsc : Option String) (enm : Option (List Value))
    (propsC : Option (List (String × ZodSchema)))
    (itemC : Option ZodSchema) (minI maxI : Option Nat)
    (pfxC : Option (List ZodSchema)) (nul : Option Bool)
    (minL maxL : Option Nat) (pat fmt : Option String)
    (mini maxi emin emax : Option Rat)
    (addC : Option (Bool ⊕ ZodSchema)) : ZodSchema :=
  if ty = some "null" then
    .describe .znull (some (jsOrStr dsc ""))
  else if ty = some "object" then
    kindObject propsC addC nul
  else if ty = some "array" then
    kindArray pfxC itemC minI maxI nul dsc
  else if ty = some "string" then
    kindString enm minL maxL pat fmt nul dsc
  else if ty = some "number" ∨ ty = some "integer" then
    .describe
      (applyNullable nul (.znumber (ty == some "integer") mini emin maxi emax)) dsc
  else if ty = some "boolean" then
    .describe (applyNullable nul .zboolean) dsc
  else
    .unknown

/-- The branch dispatch of `ZodHelpers.scanObject` (source lines 867-1118),
with the recursive compilation of child descriptors factored out: every
child-bearing field arrives already compiled (`scanObject` below feeds them
in).  The chain is the source's dispatch precedence: `const`, `anyOf`,
`oneOf`, `allOf`, then the type-kind dispatch ending in the permissive
`z.unknown()` fallback. -/
def scanStep (ty dsc : Option String) (enm : Option (List Value))
    (propsC : Option (List (String × ZodSchema)))
    (itemC : Option ZodSchema) (minI maxI : Option Nat)
    (pfxC : Option (List ZodSchema))
    (anyC oneC allC : Option (List ZodSchema))
    (nul : Option Bool) (cst : Option Value)
    (minL maxL : Option Nat) (pat fmt : Option String)
    (mini maxi emin emax : Option Rat)
    (addC : Option (Bool ⊕ ZodSchema)) : ZodSchema :=
  precConst cst dsc
    (precUnion anyC dsc
      (precUnion oneC dsc
        (precAllOf allC dsc
          (scanKind ty dsc enm propsC itemC minI maxI pfxC nul minL maxL pat fmt
            mini maxi emin emax addC))))

mutual

/-- `ZodHelpers.scanObject`: compile each child descriptor recursively and
dispatch through `scanStep`. -/
def scanObject : ZTypeDescriptor → ZodSchema
  | .mk ty dsc enm props items minI maxI pfx anyO oneO allO nul cst minL maxL pat fmt
      mini maxi emin emax addP =>
      scanStep ty dsc enm
        (match props with | some ps => some (scanProps ps) | none => none)
        (match items with | some it => some (scanObject it) | none => none)
        minI maxI
        (match pfx with | some l => some (scanList l) | none => none)
        (match anyO with | some l => some (scanList l) | none => none)
        (match oneO with | some l => some (scanList l) | none => none)
        (match allO with | some l => some (scanList l) | none => none)
        nul cst minL maxL pat fmt mini maxi emin emax
        (match addP with
         | some (Sum.inr d) => some (Sum.inr (scanObject d))
         | some (Sum.inl b) => some (Sum.inl b)
         | none => none)
termination_by structural o => o

def scanList : List ZTypeDescriptor → List ZodSchema
  | [] => []
  | d :: ds => scanObject d :: scanList ds
termination_by structural ds => ds

def scanProps : List (String × ZTypeDescriptor) → List (String × ZodSchema)
  | [] => []
  | (k, d) :: ds => (k, scanObject d) :: scanProps ds
termination_by structural ds => ds

end

/-! ## Result content model (`McpResultContentEntry`, shared types source) -/

/-- The nested `resource` payload of a `resource`-tagged content entry:
`\x7b uri: string; text?: string; blob?: string; mimeType?: string \x7d`. -/
structure ResourcePayload where
  uri : String
  text : Option String
  blob : Option String
  mimeType : Option String
deriving DecidableEq

/-- A provider response content entry.  The TS declaration limits `type` to six
literals, but the value arrives from unvalidated JSON and the normalizer's
`default` arm handles anything else, so the tag is an arbitrary string here. -/
structure McpResultContentEntry where
  type : String
  text : Option String
  data : Option String
  mimeType : Option String
  resource : Option ResourcePayload
  uri : Option String
  name : Option String
  description : Option String
deriving DecidableEq

/-- JSON string escaping for the serialized dump of an unknown entry. -/
def jsonEscapeChar (c : Char) : String :=
  if c = '"' then "\\\""
  else if c = '\\' then "\\\\"
  else if c = '\n' then "\\n"
  else if c = '\r' then "\\r"
  else if c = '\t' then "\\t"
  else String.singleton c

def jsonEscape (s : String) : String :=
  String.join (s.toList.map jsonEscapeChar)

def jsonStr (s : String) : String := "\"" ++ jsonEscape s ++ "\""

/-- A defined optional field serializes to one `"name":"value"` item; an
absent (`undefined`) field is skipped, as `JSON.stringify` does. -/
def jsonField (name : String) (v : Option String) : List String :=
  match v with
  | some s => [jsonStr name ++ ":" ++ jsonStr s]
  | none => []

def jsonStringifyResource (r : ResourcePayload) : String :=
  "\x7b" ++ String.intercalate ","
    ([jsonStr "uri" ++ ":" ++ jsonStr r.uri]
      ++ jsonField "text" r.text ++ jsonField "blob" r.blob
      ++ jsonField "mimeType" r.mimeType) ++ "\x7d"

/-- `JSON.stringify(entry)`: fields in declaration order, `undefined` skipped. -/
def jsonStringifyEntry (e : McpResultContentEntry) : String :=
  "\x7b" ++ String.intercalate ","
    ([jsonStr "type" ++ ":" ++ jsonStr e.type]
      ++ jsonField "text" e.text ++ jsonField "data" e.data
      ++ jsonField "mimeType" e.mimeType
      ++ (match e.resource with
          | some r => [jsonStr "resource" ++ ":" ++ jsonStringifyResource r]
          | none => [])
      ++ jsonField "uri" e.uri ++ jsonField "name" e.name
      ++ jsonField "description" e.description) ++ "\x7d"

/-- The canonical SDK content block produced by the normalizer: `TextContent`,
`ImageContent`, `AudioContent`, `EmbeddedResource` (text or blob sub-variant),
or `ResourceLink`. -/
inductive SDKContent where
  | text (text : String)
  | image (data : String) (mimeType : String)
  | audio (data : String) (mimeType : String)
  | resourceText (uri : String) (text : String) (mimeType : Option String)
  | resourceBlob (uri : String) (blob : String) (mimeType : Option String)
  | resourceLink (uri : String) (name : String) (description : Option String)
      (mimeType : Option String)
deriving DecidableEq

/-- The wire tag of a canonical content block (both `EmbeddedResource`
sub-variants carry the tag `resource`). -/
def SDKContent.tag : SDKContent → String
  | .text _ => "text"
  | .image _ _ => "image"
  | .audio _ _ => "audio"
  | .resourceText _ _ _ => "resource"
  | .resourceBlob _ _ _ => "resource"
  | .resourceLink _ _ _ _ => "resource_link"

/-- `MCPHiveProxy.convertToSDKContent` (source lines 708-787): normalize one
provider content entry into one SDK content block.  The `resource` arm picks
the blob sub-variant iff `entry.resource?.blob` is truthy (present and
non-empty); the legacy `blob` tag and any unrecognized tag degrade to text. -/
def convertToSDKContent (entry : McpResultContentEntry) : SDKContent :=
  match entry.type with
  | "text" => .text (jsOrStr entry.text "")
  | "image" =>
      .image (jsOrStr entry.data "") (jsOrStr entry.mimeType "application/octet-stream")
  | "audio" =>
      .audio (jsOrStr entry.data "") (jsOrStr entry.mimeType "application/octet-stream")
  | "resource" =>
      (match entry.resource with
       | some r =>
           (match r.blob with
            | some b =>
                if b = "" then
                  .resourceText (jsOrStr (some r.uri) "") (jsOrStr r.text "") r.mimeType
                else
                  .resourceBlob r.uri b r.mimeType
            | none =>
                .resourceText (jsOrStr (some r.uri) "") (jsOrStr r.text "") r.mimeType)
       | none => .resourceText (jsOrStr none "") (jsOrStr none "") none)
  | "resource_link" =>
      .resourceLink (jsOrStr entry.uri "") (jsOrStr entry.name "")
        entry.description entry.mimeType
  | "blob" => .text (jsOrStr entry.text "")
  | _ => .text (jsOrStr entry.text (jsonStringifyEntry entry))

/-! ## Discovery / capability descriptors and the forwarded-result shape -/

structure Tool where
  name : String
  description : String
  -- `input_schema` carries string-encoded descriptors on the wire; they are
  -- `JSON.parse`d immediately before compilation, so they appear decoded here
  input_schema : List (String × ZTypeDescriptor)
  required_inputs : List String

structure MCPHiveServerDesc where
  id : String
  server : String
  tools : List Tool

structure Resource where
  uri : String
  name : String
  description : Option String
  mimeType : Option String
deriving DecidableEq

structure MCPHiveResourcesDesc where
  id : String
  server : String
  resources : List Resource
deriving DecidableEq

structure PromptArgument where
  name : String
  description : Option String
  required : Option Bool
deriving DecidableEq

structure Prompt where
  name : String
  description : Option String
  arguments : Option (List PromptArgument)
deriving DecidableEq

structure MCPHivePromptsDesc where
  id : String
  server : String
  prompts : List Prompt
deriving DecidableEq

/-- One discovered server (stats/pricing fields of the TS interface are not
consumed by the proxy and are omitted). -/
structure MCPServerDiscoveryResult where
  id : String
  name : String
  description : String
deriving DecidableEq

structure MCPHiveDiscoveryDesc where
  servers : List MCPServerDiscoveryResult
  totalCount : Rat
deriving DecidableEq

/-- The `structuredContent` of a forwarded result: either a payload that
passes the `isMCPHiveDiscoveryDesc` runtime guard, or any other JSON object
(which fails it). -/
inductive SContent where
  | discovery (d : MCPHiveDiscoveryDesc)
  | other
deriving DecidableEq

/-- `McpResult`: the parsed body a forwarding call resolves with. -/
structure McpResult where
  isError : Option Bool
  content : List McpResultContentEntry
  structuredContent : Option SContent
deriving DecidableEq

/-- The SDK-facing `CallToolResult` assembled by a tool-call handler. -/
structure CallToolResult where
  content : List SDKContent
  isError : Option Bool
  structuredContent : Option SContent
deriving DecidableEq

/-- The result a registered tool handler returns to the caller, as a function
of what `sendMCPHiveRequest` resolved with (`none` is the absence signal: the
request helper catches transport/parse failures and resolves with `null`).
Mirrors the handler body in `registerServerTools` (source lines 307-327):
`content` is `(result?.content || []).map(convertToSDKContent)`, `isError` is
`result?.isError`, `structuredContent` is passed through. -/
def toolCallHandlerResult (result : Option McpResult) : CallToolResult :=
  { content :=
      (match result with
       | some r => r.content
       | none => []).map convertToSDKContent
    isError :=
      (match result with
       | some r => r.isError
       | none => none)
    structuredContent :=
      (match result with
       | some r => r.structuredContent
       | none => none) }

/-! ## Namespacing (`makeNamespacedName` / `parseNamespacedName`,
source lines 52-139)

JS strings are modelled as `List Char` so that the `indexOf`/`substring`
arithmetic of the parser is explicit. -/

/-- `NAMESPACE_SEPARATOR = '___'`. -/
def NAMESPACE_SEPARATOR : List Char := ['_', '_', '_']

/-- `namespacedName.indexOf(NAMESPACE_SEPARATOR)`: index of the first
occurrence of the separator, `none` when there is none. -/
def findSepIdx : List Char → Option Nat
  | [] => none
  | c :: rest =>
      if NAMESPACE_SEPARATOR.isPrefixOf (c :: rest) then some 0
      else (findSepIdx rest).map (· + 1)

/-- `parseNamespacedName`: split at the first separator occurrence into
`(serverName, itemName)`; `none` models the thrown
`Invalid namespaced name` error when `indexOf` returns `-1`. -/
def parseNamespacedName (namespacedName : List Char) : Option (List Char × List Char) :=
  match findSepIdx namespacedName with
  | none => none
  | some idx =>
      some (namespacedName.take idx,
        namespacedName.drop (idx + NAMESPACE_SEPARATOR.length))

/-- `makeNamespacedName`: the template literal
`serverName + NAMESPACE_SEPARATOR + itemName`. -/
def makeNamespacedName (serverName itemName : List Char) : List Char :=
  serverName ++ NAMESPACE_SEPARATOR ++ itemName

/-- Whether a string contains the separator at all. -/
def containsSep (s : List Char) : Bool := (findSepIdx s).isSome

/-- Whether a string's last character is `c`. -/
def endsWith (c : Char) : List Char → Bool
  | [] => false
  | [d] => d == c
  | _ :: d :: rest => endsWith c (d :: rest)

/-- String-level `makeNamespacedName`, used where registrations are built. -/
def makeNamespacedNameS (serverName itemName : String) : String :=
  serverName ++ "___" ++ itemName

/-! ## Tool-argument shape inference (`inferZodRawShapeFromSpec`) -/

/-- Property keys inherited from `Array.prototype` / `Object.prototype`;
together with the numeric indices and `length` these are what the JS `in`
operator sees on an array value. -/
def arrayPrototypeKeys : List String :=
  ["at", "concat", "constructor", "copyWithin", "entries", "every", "fill",
   "filter", "find", "findIndex", "findLast", "findLastIndex", "flat",
   "flatMap", "forEach", "includes", "indexOf", "join", "keys", "lastIndexOf",
   "map", "pop", "push", "reduce", "reduceRight", "reverse", "shift", "slice",
   "some", "sort", "splice", "toLocaleString", "toReversed", "toSorted",
   "toSpliced", "toString", "unshift", "values", "with", "hasOwnProperty",
   "isPrototypeOf", "propertyIsEnumerable", "valueOf"]

/-- JS `k in arr` for an array value `arr`: property-key membership — a
numeric index below the length, `length`, or an inherited prototype member.
It does NOT test whether `k` is one of the array's elements. -/
def jsInArray (k : String) (arr : List String) : Bool :=
  (List.range arr.length).any (fun i => toString i == k)
    || k == "length" || arrayPrototypeKeys.contains k

/-- `ZodHelpers.inferZodRawShapeFromSpec` (source lines 1130-1147): compile
every property of the spec and wrap it `.optional()` unless
`k in required_inputs` holds — the JS `in` keyword, i.e. index membership on
the array, not value membership. -/
def inferZodRawShapeFromSpec (spec : List (String × ZTypeDescriptor))
    (required_inputs : List String) : List (String × ZodSchema) :=
  spec.map (fun kv =>
    let zodType := scanObject kv.2
    let zodType := if !(jsInArray kv.1 required_inputs) then .optional zodType else zodType
    (kv.1, zodType))

/-! ## Gateway-mode registration (`initializeGatewayMode` and the
`registerDiscoveryTools` / `registerServer*` family, source lines 178-473)

The discovery collaborator (the `ListToolsProxy.exec` /
`ListResourcesProxy.exec` / `ListPromptsProxy.exec` helpers and the direct
`discoverServers` request) is an explicit environment; `.error` models a
rejected promise (thrown `Invalid response format from MCP-HIVE`), and the
`discoverResult` field models what `sendMCPHiveRequest` resolved with
(`none` = absence).  Registering a capability on the SDK server becomes
appending a `Registration` event. -/

def METHOD_TOOLS_CALL : String := "tools/call"

def METHOD_RESOURCES_READ : String := "resources/read"

def METHOD_PROMPTS_GET : String := "prompts/get"

def MCPHIVE_SERVER : String := "mcp-hive"

/-- The forwarding request a registered handler performs when invoked:
the `(mcpServer, method, toolName)` triple the handler closure passes to
`sendMCPHiveRequest` (the arguments are the caller's, so they are not part
of the registration). -/
structure ForwardCall where
  mcpServer : String
  method : String
  name : String
deriving DecidableEq

/-- One capability registration performed on the SDK `McpServer`. -/
inductive Registration where
  | tool (name : String) (inputSchema : List (String × ZodSchema)) (forward : ForwardCall)
  | resource (name : String) (uri : String) (forward : ForwardCall)
  | prompt (name : String) (argsSchema : List (String × ZodSchema)) (forward : ForwardCall)

/-- The collaborator environment of one gateway run. -/
structure HiveEnv where
  serverTools : String → Except String MCPHiveServerDesc
  serverResources : String → Except String MCPHiveResourcesDesc
  serverPrompts : String → Except String MCPHivePromptsDesc
  discoverResult : Option McpResult

/-- The guard of `initializeGatewayMode`: the discovery result must be
non-null, carry a truthy `structuredContent`, and pass
`isMCPHiveDiscoveryDesc`; otherwise gateway mode logs an error and returns. -/
def discoveryContentOf : Option McpResult → Option MCPHiveDiscoveryDesc
  | none => none
  | some r =>
      match r.structuredContent with
      | some (.discovery d) => some d
      | _ => none

/-- `registerDiscoveryTools` (source lines 224-271): fetch the `mcp-hive`
server's own tools and register each under its plain (non-namespaced) name;
the handler forwards to `mcp-hive` itself.  A failed fetch rejects. -/
def registerDiscoveryTools (env : HiveEnv) : Except String (List Registration) :=
  match env.serverTools MCPHIVE_SERVER with
  | .error e => .error e
  | .ok desc =>
      .ok (desc.tools.map (fun t =>
        .tool t.name (inferZodRawShapeFromSpec t.input_schema t.required_inputs)
          ⟨MCPHIVE_SERVER, METHOD_TOOLS_CALL, t.name⟩))

/-- `registerServerTools` (source lines 276-330): register every tool of one
server under its namespaced name; the handler forwards with the original
(un-namespaced) tool name.  A failed fetch rejects — the caller's per-server
`try/catch` decides what happens then. -/
def registerServerToolsE (env : HiveEnv) (serverName : String) :
    Except String (List Registration) :=
  match env.serverTools serverName with
  | .error e => .error e
  | .ok desc =>
      .ok (desc.tools.map (fun t =>
        .tool (makeNamespacedNameS serverName t.name)
          (inferZodRawShapeFromSpec t.input_schema t.required_inputs)
          ⟨serverName, METHOD_TOOLS_CALL, t.name⟩))

/-- `registerServerResources` (source lines 335-400): namespaced display name
AND namespaced URI; the stored read handler forwards `resources/read` with the
captured original `resource.uri`.  The body is wrapped in `try/catch`, so a
failed fetch registers nothing and never throws. -/
def registerServerResources (env : HiveEnv) (serverName : String) : List Registration :=
  match env.serverResources serverName with
  | .error _ => []
  | .ok desc =>
      desc.resources.map (fun r =>
        .resource (makeNamespacedNameS serverName r.name)
          (makeNamespacedNameS serverName r.uri)
          ⟨serverName, METHOD_RESOURCES_READ, r.uri⟩)

/-- The zod raw shape built for a prompt's arguments: every argument is a
`z.string()`, `.optional()` unless `arg.required` is truthy; the surrounding
`if (prompt.arguments && prompt.arguments.length > 0)` guard only skips an
empty loop, so mapping directly is equivalent. -/
def promptArgsShape (args : Option (List PromptArgument)) : List (String × ZodSchema) :=
  match args with
  | none => []
  | some l =>
      l.map (fun a =>
        (a.name,
         if jsTruthy a.required then ZodSchema.zstring none none none none
         else ZodSchema.optional (ZodSchema.zstring none none none none)))

/-- `registerServerPrompts` (source lines 405-473): namespaced prompt names,
handler forwards `prompts/get` with the original prompt name; `try/catch`
makes a failed fetch register nothing. -/
def registerServerPrompts (env : HiveEnv) (serverName : String) : List Registration :=
  match env.serverPrompts serverName with
  | .error _ => []
  | .ok desc =>
      desc.prompts.map (fun p =>
        .prompt (makeNamespacedNameS serverName p.name) (promptArgsShape p.arguments)
          ⟨serverName, METHOD_PROMPTS_GET, p.name⟩)

/-- The per-server `try` block of the gateway loop (source lines 207-218):
tools, then resources, then prompts.  If the tool fetch rejects, the `catch`
logs and skips the entire server (resources/prompts are not attempted);
resource/prompt fetches cannot reject (inner `try/catch`). -/
def registerOneServer (env : HiveEnv) (serverName : String) : List Registration :=
  match registerServerToolsE env serverName with
  | .error _ => []
  | .ok toolRegs =>
      toolRegs ++ registerServerResources env serverName
        ++ registerServerPrompts env serverName

def registerAllServers (env : HiveEnv) : List MCPServerDiscoveryResult → List Registration
  | [] => []
  | s :: rest => registerOneServer env s.name ++ registerAllServers env rest

/-- `initializeGatewayMode` (source lines 178-219): register the discovery
tools first; then fetch the server catalog; if that result is null or fails
the discovery-descriptor guard, log and return normally (zero providers);
otherwise register every discovered server in order. -/
def initializeGatewayMode (env : HiveEnv) : Except String (List Registration) :=
  match registerDiscoveryTools env with
  | .error e => .error e
  | .ok discRegs =>
      match discoveryContentOf env.discoverResult with
      | none => .ok discRegs
      | some discovery => .ok (discRegs ++ registerAllServers env discovery.servers)

/-! ## Concrete fixtures used to evaluate the embedded code -/

/-- `\x7b type: "string" \x7d`. -/
def descStringA : ZTypeDescriptor :=
  .mk (some "string") none none none none none none none none none none
    none none none none none none none none none none none

/-- `\x7b type: "number" \x7d`. -/
def descNumberA : ZTypeDescriptor :=
  .mk (some "number") none none none none none none none none none none
    none none none none none none none none none none none

/-- `\x7b type: "array", prefixItems: [\x7btype:"string"\x7d, \x7btype:"number"\x7d] \x7d`. -/
def descTupleSN : ZTypeDescriptor :=
  .mk (some "array") none none none none none none (some [descStringA, descNumberA])
    none none none none none none none none none none none none none none

/-- `\x7b const: "x", nullable: true \x7d`. -/
def descConstNullable : ZTypeDescriptor :=
  .mk none none none none none none none none none none none
    (some true) (some (.vstr "x")) none none none none none none none none none

/-- `\x7b type: "string", nullable: true \x7d`. -/
def descStringNullable : ZTypeDescriptor :=
  .mk (some "string") none none none none none none none none none none
    (some true) none none none none none none none none none none

/-- The spec's `buildInputSet` example: `\x7ba: string, b: string\x7d`. -/
def specAB : List (String × ZTypeDescriptor) := [("a", descStringA), ("b", descStringA)]

/-- Environment whose hive catalog is empty and whose discovery call fails. -/
def envDiscovery : HiveEnv :=
  { serverTools := fun _ => .ok ⟨"hive", "mcp-hive", []⟩
    serverResources := fun _ => .error "unavailable"
    serverPrompts := fun _ => .error "unavailable"
    discoverResult := none }

/-- Environment exposing one resource for server `svc`. -/
def envResources : HiveEnv :=
  { serverTools := fun _ => .error "unavailable"
    serverResources := fun _ =>
      .ok ⟨"id0", "svc", [⟨"file:///a.txt", "fileA", none, none⟩]⟩
    serverPrompts := fun _ => .error "unavailable"
    discoverResult := none }

/-- A legacy blob entry: `\x7btype:"blob", text:"QUFB"\x7d`. -/
def entryBlob : McpResultContentEntry :=
  ⟨"blob", some "QUFB", none, none, none, none, none, none⟩

/-- An entry with an unrecognized tag. -/
def entryWeird : McpResultContentEntry :=
  ⟨"hologram", none, none, none, none, none, none, none⟩

/-- A resource entry whose inner blob is the empty string. -/
def entryResEmptyBlob : McpResultContentEntry :=
  ⟨"resource", none, none, none, some ⟨"mem://r", some "body", some "", none⟩,
   none, none, none⟩

/-- A resource entry without an inner resource object. -/
def entryResAbsent : McpResultContentEntry :=
  ⟨"resource", none, none, none, none, none, none, none⟩

/-- Which precedence branches are skipped: a `const`/`anyOf`/`oneOf`/`allOf`
field that is absent, or present but an empty list, selects no branch. -/
def emptyBranch (x : Option (List ZTypeDescriptor)) : Prop := x = none ∨ x = some []

/-- One-step unfolding of `scanObject` with the child compilations expressed
through `Option.map`, convenient when the child fields are symbolic. -/
theorem scanObject_mk (ty dsc : Option String) (enm : Option (List Value))
    (props : Option (List (String × ZTypeDescriptor))) (itm : Option ZTypeDescriptor)
    (minI maxI : Option Nat) (pfx anyO oneO allO : Option (List ZTypeDescriptor))
    (nul : Option Bool) (cst : Option Value) (minL maxL : Option Nat)
    (pat fmt : Option String) (mini maxi emin emax : Option Rat)
    (addP : Option (Bool ⊕ ZTypeDescriptor)) :
    scanObject (.mk ty dsc enm props itm minI maxI pfx anyO oneO allO nul cst minL maxL
        pat fmt mini maxi emin emax addP)
      = scanStep ty dsc enm (props.map (fun ps => scanProps ps))
          (itm.map (fun it => scanObject it)) minI maxI
          (pfx.map (fun l => scanList l)) (anyO.map (fun l => scanList l))
          (oneO.map (fun l => scanList l)) (allO.map (fun l => scanList l))
          nul cst minL maxL pat fmt mini maxi emin emax
          (addP.map (fun ap => match ap with
            | Sum.inr d => Sum.inr (scanObject d)
            | Sum.inl b => Sum.inl b)) := by
  cases props <;> cases itm <;> cases pfx <;> cases anyO <;> cases oneO <;> cases allO <;>
    rcases addP with _ | ⟨b | d⟩ <;> rfl

/-! ## Lemmas about the separator search -/

theorem findSepIdx_cons_none {c : Char} {p : List Char} (h : findSepIdx (c :: p) = none) :
    NAMESPACE_SEPARATOR.isPrefixOf (c :: p) = false ∧ findSepIdx p = none := by
  simp only [findSepIdx] at h
  rcases hpre : NAMESPACE_SEPARATOR.isPrefixOf (c :: p) with _ | _
  · simp only [hpre, Bool.false_eq_true, if_false, Option.map_eq_none'] at h
    exact ⟨rfl, h⟩
  · simp [hpre] at h

theorem endsWith_cons_tail {c d : Char} {p : List Char}
    (h : endsWith '_' (c :: d :: p) = false) : endsWith '_' (d :: p) = false := h

/-- If `p` has no separator occurrence and does not end in `'_'`, the first
separator occurrence of `p ++ '___' ++ n` is exactly at index `p.length`. -/
theorem findSepIdx_append_sep (p : List Char) (hp : containsSep p = false)
    (he : endsWith '_' p = false) (n : List Char) :
    findSepIdx (p ++ NAMESPACE_SEPARATOR ++ n) = some p.length := by
  induction p with
  | nil => simp [findSepIdx, NAMESPACE_SEPARATOR, List.isPrefixOf]
  | cons c p ih =>
      have hnone : findSepIdx (c :: p) = none := by
        revert hp
        unfold containsSep
        rcases h : findSepIdx (c :: p) with _ | i <;> simp [h]
      obtain ⟨hpre, htail⟩ := findSepIdx_cons_none hnone
      have hp' : containsSep p = false := by simp [containsSep, htail]
      have he' : endsWith '_' p = false := by
        rcases p with _ | ⟨d, p⟩
        · rfl
        · exact endsWith_cons_tail he
      have hnotpre : NAMESPACE_SEPARATOR.isPrefixOf (c :: (p ++ NAMESPACE_SEPARATOR ++ n))
          = false := by
        rcases p with _ | ⟨d, p⟩
        · -- `p = []`: the first char after `c` is the separator's own `'_'`,
          -- so a match at 0 would need `c = '_'`, excluded by `he`
          have hc : ¬ ('_' = c) := by
            intro hceq
            rw [← hceq] at he
            simp [endsWith] at he
          simp [NAMESPACE_SEPARATOR, List.isPrefixOf, hc]
        · rcases p with _ | ⟨e, p⟩
          · -- `p = [d]`: a match at 0 would need `d = '_'`, excluded by `he`
            have hd : ¬ ('_' = d) := by
              intro hdeq
              rw [← hdeq] at he
              simp [endsWith] at he
            simp [NAMESPACE_SEPARATOR, List.isPrefixOf, hd]
          · -- `p = d :: e :: _`: a match at 0 would already match inside
            -- `c :: p`, excluded by `hp`
            revert hpre
            simp [NAMESPACE_SEPARATOR, List.isPrefixOf]
      have hsplit : (c :: p) ++ NAMESPACE_SEPARATOR ++ n
          = c :: (p ++ NAMESPACE_SEPARATOR ++ n) := by simp
      rw [hsplit]
      simp only [findSepIdx, hnotpre, Bool.false_eq_true, if_false, ih hp' he',
        Option.map_some', List.length_cons]

/-- Decoding splits at the first separator occurrence, so encoding round-trips
whenever the server name is separator-free and does not end in `'_'` (a
trailing underscore would merge with the separator and move the first
occurrence left).  The item name is unconstrained. -/
theorem parse_make_core (p n : List Char) (hp : containsSep p = false)
    (he : endsWith '_' p = false) :
    parseNamespacedName (makeNamespacedName p n) = some (p, n) := by
  unfold parseNamespacedName makeNamespacedName
  rw [findSepIdx_append_sep p hp he n]
  have h1 : (p ++ NAMESPACE_SEPARATOR ++ n).take p.length = p := by
    rw [List.append_assoc, List.take_left]
  have h2 : (p ++ NAMESPACE_SEPARATOR ++ n).drop (p.length + NAMESPACE_SEPARATOR.length)
      = n := by
    have hlen : p.length + NAMESPACE_SEPARATOR.length
        = (p ++ NAMESPACE_SEPARATOR).length := (List.length_append _ _).symm
    rw [hlen, List.drop_left]
  simp only [h1, h2]

theorem parse_of_no_sep (s : List Char) (hs : containsSep s = false) :
    parseNamespacedName s = none := by
  unfold parseNamespacedName
  rcases h : findSepIdx s with _ | i
  · rfl
  · rw [containsSep, h] at hs
    simp at hs

/-! ## C4: namespacing round-trip -/

/-- C4 counterexample: `serverName = "a_"` and `itemName = "x"` contain no
separator, yet decoding the encoding yields `("a", "_x")`, not `("a_", "x")` —
the trailing underscore of the server name merges with the separator. -/
theorem parse_make_counterexample :
    containsSep ['a', '_'] = false ∧ containsSep ['x'] = false ∧
      parseNamespacedName (makeNamespacedName ['a', '_'] ['x']) ≠
        some (['a', '_'], ['x']) ∧
      parseNamespacedName (makeNamespacedName ['a', '_'] ['x']) =
        some (['a'], ['_', 'x']) := by decide

/-- C4 (amended): for all `p`, `n` with no separator occurrence AND `p` not
ending in `'_'`, `parseNamespacedName (makeNamespacedName p n) = (p, n)`
(decoding splits at the first occurrence); and every string with no separator
occurrence makes `parseNamespacedName` fail (the invalid-namespaced-name
error) rather than return a pair. -/
theorem parse_make_roundtrip :
    (∀ p n : List Char, containsSep p = false → endsWith '_' p = false →
        containsSep n = false →
        parseNamespacedName (makeNamespacedName p n) = some (p, n))
  ∧ (∀ s : List Char, containsSep s = false → parseNamespacedName s = none) :=
  ⟨fun p n hp he _ => parse_make_core p n hp he, parse_of_no_sep⟩

theorem parse_make_roundtrip_witness :
    parseNamespacedName (makeNamespacedName ['s', 'v', 'c'] ['p', 'i', 'n', 'g'])
        = some (['s', 'v', 'c'], ['p', 'i', 'n', 'g'])
  ∧ parseNamespacedName ['n', 'o', 's', 'e', 'p'] = none :=
  ⟨parse_make_roundtrip.1 ['s', 'v', 'c'] ['p', 'i', 'n', 'g']
      (by decide) (by decide) (by decide),
   parse_make_roundtrip.2 ['n', 'o', 's', 'e', 'p'] (by decide)⟩

/-! ## C8: round-trip with arbitrary item names -/

/-- C8 counterexample: `providerId = "s_"` is separator-free, yet with
`localName = "t"` the round-trip returns `("s", "_t")`. -/
theorem parse_make_any_item_counterexample :
    containsSep ['s', '_'] = false ∧
      parseNamespacedName (makeNamespacedName ['s', '_'] ['t']) ≠
        some (['s', '_'], ['t']) ∧
      parseNamespacedName (makeNamespacedName ['s', '_'] ['t']) =
        some (['s'], ['_', 't']) := by decide

/-- C8 (amended): for every `providerId` with no separator occurrence that
also does not end in `'_'`, and EVERY `localName` — including ones containing
the separator — the round-trip returns exactly `(providerId, localName)`. -/
theorem parse_make_any_item :
    ∀ p n : List Char, containsSep p = false → endsWith '_' p = false →
      parseNamespacedName (makeNamespacedName p n) = some (p, n) :=
  fun p n hp he => parse_make_core p n hp he

theorem parse_make_any_item_witness :
    parseNamespacedName
        (makeNamespacedName ['s', 'v', 'c'] ['a', '_', '_', '_', 'b'])
      = some (['s', 'v', 'c'], ['a', '_', '_', '_', 'b']) :=
  parse_make_any_item ['s', 'v', 'c'] ['a', '_', '_', '_', 'b'] (by decide) (by decide)

/-! ## C1: requiredness in `inferZodRawShapeFromSpec` -/

/-- C1: the code evaluated at the spec's own `buildInputSet` example.
`inferZodRawShapeFromSpec` tests `k in required_inputs` — the JS `in`
operator, which on an array checks property keys (indices), not element
values — so `"a" in ["a"]` is `false` and BOTH properties compile to
optional validators.  Validating `\x7b\x7d` therefore SUCCEEDS, while the
claim (and the function's own doc comment, which says `required_inputs` is
the list of required attributes) requires it to fail with `a` missing.  The
other two examples agree with the claim. -/
theorem required_membership_bug :
    accepts permissiveOracle (.object (inferZodRawShapeFromSpec specAB ["a"]))
        (.vobj []) = true
  ∧ accepts permissiveOracle (.object (inferZodRawShapeFromSpec specAB ["a"]))
        (.vobj [("a", .vstr "x")]) = true
  ∧ accepts permissiveOracle (.object (inferZodRawShapeFromSpec specAB ["a"]))
        (.vobj [("a", .vstr "x"), ("b", .vstr "y")]) = true
  ∧ jsInArray "a" ["a"] = false := by decide

/-! ## C2: handling of the absence signal by tool-call handlers -/

/-- C2 counterexample: when the forwarding call resolves with `null`, the
handler's result is NOT `\x7bisError: true, content: []\x7d` — `isError` is
`result?.isError`, which is `undefined` for a null result. -/
theorem absent_result_counterexample :
    toolCallHandlerResult none ≠
      { content := [], isError := some true, structuredContent := none } := by
  decide

/-- C2 (amended): a forwarding call returning the absence signal yields the
caller-visible result `\x7bcontent: [], isError: undefined,
structuredContent: undefined\x7d` — the failure is converted locally (the
handler, a total function here as in the source, returns normally), but
`isError` is left `undefined` rather than set to `true`. -/
theorem absent_result_shape :
    toolCallHandlerResult none =
      { content := [], isError := none, structuredContent := none } := rfl

/-! ## C5: gateway mode registers discovery tools first and survives a failed
discovery call -/

/-- C5: whenever the discovery-tool registration succeeds (yielding the fixed,
unnamespaced discovery registrations `discRegs`), `initializeGatewayMode`
returns normally with `discRegs` as a prefix — providers only ever append; and
if the top-level `discoverServers` call fails or its payload fails the
discovery-descriptor guard, it returns normally with exactly `discRegs`: zero
providers, discovery tools still registered. -/
theorem gateway_discovery_first (env : HiveEnv) (discRegs : List Registration)
    (hd : registerDiscoveryTools env = .ok discRegs) :
    (∃ provRegs, initializeGatewayMode env = .ok (discRegs ++ provRegs))
  ∧ (discoveryContentOf env.discoverResult = none →
        initializeGatewayMode env = .ok discRegs) := by
  constructor
  · unfold initializeGatewayMode
    rw [hd]
    rcases h : discoveryContentOf env.discoverResult with _ | d
    · exact ⟨[], by simp⟩
    · exact ⟨registerAllServers env d.servers, rfl⟩
  · intro h
    unfold initializeGatewayMode
    rw [hd, h]

theorem gateway_discovery_first_witness :
    (∃ provRegs, initializeGatewayMode envDiscovery = .ok ([] ++ provRegs))
  ∧ (discoveryContentOf envDiscovery.discoverResult = none →
        initializeGatewayMode envDiscovery = .ok []) :=
  gateway_discovery_first envDiscovery [] rfl

/-! ## C7: resources are exposed under the namespaced URI and read through the
original URI -/

/-- C7: every resource of a successfully listed server is registered with
display name `providerId + '___' + localName`, resource identifier
`providerId + '___' + localURI` (the separator is applied to the identifying
key, the URI), and a read handler that forwards `resources/read` with the
original, un-namespaced local URI. -/
theorem resources_namespaced_uri (env : HiveEnv) (serverName : String)
    (desc : MCPHiveResourcesDesc) (h : env.serverResources serverName = .ok desc) :
    ∀ r ∈ desc.resources,
      Registration.resource (serverName ++ "___" ++ r.name)
          (serverName ++ "___" ++ r.uri)
          ⟨serverName, "resources/read", r.uri⟩
        ∈ registerServerResources env serverName := by
  intro r hr
  unfold registerServerResources
  rw [h]
  exact List.mem_map_of_mem _ hr

theorem resources_namespaced_uri_witness :
    Registration.resource ("svc" ++ "___" ++ "fileA") ("svc" ++ "___" ++ "file:///a.txt")
        ⟨"svc", "resources/read", "file:///a.txt"⟩
      ∈ registerServerResources envResources "svc" :=
  resources_namespaced_uri envResources "svc"
    ⟨"id0", "svc", [⟨"file:///a.txt", "fileA", none, none⟩]⟩ rfl
    ⟨"file:///a.txt", "fileA", none, none⟩ (by simp)

theorem jsOrStr_some_empty (s : String) : jsOrStr (some s) "" = s := by
  by_cases h : s = "" <;> simp [jsOrStr, h]

/-! ## C9: empty-blob and absent-resource entries take the text sub-variant -/

/-- C9: a `resource`-tagged entry whose inner resource carries `blob: ""` (or
no inner resource at all) is normalized to the TEXT sub-variant of
`EmbeddedResource` — the blob/text choice tests truthiness of the blob value,
not field presence — with `uri` and `text` defaulting to `""` when absent. -/
theorem resource_empty_blob_text_variant :
    (∀ (e : McpResultContentEntry) (r : ResourcePayload),
        e.type = "resource" → e.resource = some r → r.blob = some "" →
        convertToSDKContent e = .resourceText r.uri (jsOrStr r.text "") r.mimeType)
  ∧ (∀ e : McpResultContentEntry, e.type = "resource" → e.resource = none →
        convertToSDKContent e = .resourceText "" "" none) := by
  constructor
  · intro e r hty hres hblob
    obtain ⟨ty, tx, da, mt, res, uri, nm, dsc⟩ := e
    simp only at hty hres
    subst hty
    subst hres
    obtain ⟨ru, rt, rb, rm⟩ := r
    simp only at hblob
    subst hblob
    simp [convertToSDKContent, jsOrStr_some_empty]
  · intro e hty hres
    obtain ⟨ty, tx, da, mt, res, uri, nm, dsc⟩ := e
    simp only at hty hres
    subst hty
    subst hres
    simp [convertToSDKContent, jsOrStr]

theorem resource_empty_blob_text_variant_witness :
    convertToSDKContent entryResEmptyBlob = .resourceText "mem://r" "body" none
  ∧ convertToSDKContent entryResAbsent = .resourceText "" "" none :=
  ⟨resource_empty_blob_text_variant.1 entryResEmptyBlob
      ⟨"mem://r", some "body", some "", none⟩ rfl rfl rfl,
   resource_empty_blob_text_variant.2 entryResAbsent rfl rfl⟩

/-! ## C10: the normalizer is total and emits only the five canonical tags -/

/-- C10: `convertToSDKContent` (a total function, as in the source, whose
`default` arm handles anything) always produces exactly one block whose tag is
among the five canonical ones — never `blob`; a legacy `blob` entry degrades
to text with its payload copied verbatim, and an unrecognized tag degrades to
text using the entry's `text` field when truthy, else the serialized dump of
the whole entry. -/
theorem convert_canonical_tags :
    (∀ e : McpResultContentEntry,
        (convertToSDKContent e).tag ∈
            ["text", "image", "audio", "resource", "resource_link"]
          ∧ (convertToSDKContent e).tag ≠ "blob")
  ∧ (∀ e : McpResultContentEntry, e.type = "blob" →
        convertToSDKContent e = .text (jsOrStr e.text ""))
  ∧ (∀ e : McpResultContentEntry,
        e.type ∉ (["text", "image", "audio", "resource", "resource_link", "blob"] :
            List String) →
        convertToSDKContent e = .text (jsOrStr e.text (jsonStringifyEntry e))) := by
  refine ⟨fun e => ?_, fun e hty => ?_, fun e hty => ?_⟩
  · cases h : convertToSDKContent e <;> simp [SDKContent.tag]
  · obtain ⟨ty, tx, da, mt, res, uri, nm, dsc⟩ := e
    simp only at hty
    subst hty
    rfl
  · obtain ⟨ty, tx, da, mt, res, uri, nm, dsc⟩ := e
    simp only at hty
    simp only [convertToSDKContent]
    split <;> simp_all

theorem convert_canonical_tags_witness :
    convertToSDKContent entryBlob = .text "QUFB"
  ∧ convertToSDKContent entryWeird
      = .text (jsOrStr entryWeird.text (jsonStringifyEntry entryWeird)) :=
  ⟨convert_canonical_tags.2.1 entryBlob rfl,
   convert_canonical_tags.2.2 entryWeird (by decide)⟩

/-! ## C3: where the `nullable` wrapping is (and is not) applied -/

/-- C3 counterexample: `\x7bconst: "x", nullable: true\x7d` — the const branch
returns before any nullable handling, so the compiled validator REJECTS
explicit null (while still accepting the literal). -/
theorem nullable_const_counterexample :
    jsTruthy descConstNullable.nullable = true ∧
      accepts permissiveOracle (scanObject descConstNullable) .vnull = false ∧
      accepts permissiveOracle (scanObject descConstNullable) (.vstr "x") = true := by
  decide

/-- C3 (amended): `nullable: true` makes the compiled validator accept
explicit null in every kind-dispatch branch — null, object (record and
shape), array (tuple and list), string (enum and constrained),
number/integer, boolean, and the fallback (which accepts null regardless);
where wrapping happens it is applied to the base validator before the
description is attached.  But in the `const`, `anyOf`, `oneOf` and `allOf`
branches `nullable` is ignored: the const branch, for instance, returns the
bare described literal. -/
theorem nullable_wrap_behavior :
    (∀ (ω : FormatOracle) (o : ZTypeDescriptor),
        o.const = none → emptyBranch o.anyOf → emptyBranch o.oneOf →
        emptyBranch o.allOf → jsTruthy o.nullable = true →
        accepts ω (scanObject o) .vnull = true)
  ∧ (∀ (o : ZTypeDescriptor) (c : Value), o.const = some c →
        scanObject o = .describe (.literal c) (some (jsOrStr o.description ""))) := by
  constructor
  · intro ω o hc ha ho hl hn
    obtain ⟨ty, dsc, enm, props, itm, minI, maxI, pfx, anyO, oneO, allO, nul, cst,
      minL, maxL, pat, fmt, mini, maxi, emin, emax, addP⟩ := o
    simp only [ZTypeDescriptor.const] at hc
    simp only [ZTypeDescriptor.anyOf, emptyBranch] at ha
    simp only [ZTypeDescriptor.oneOf, emptyBranch] at ho
    simp only [ZTypeDescriptor.allOf, emptyBranch] at hl
    simp only [ZTypeDescriptor.nullable] at hn
    subst hc
    rw [scanObject_mk]
    rcases ha with rfl | rfl <;> rcases ho with rfl | rfl <;> rcases hl with rfl | rfl <;>
      · simp only [Option.map_some', Option.map_none', scanList, scanStep, precConst,
          precUnion, precAllOf, scanKind]
        split_ifs <;> (try simp only [kindObject, kindArray, kindString]) <;>
          (repeat' split) <;> simp [accepts, applyNullable, hn]
  · intro o c hc
    obtain ⟨ty, dsc, enm, props, itm, minI, maxI, pfx, anyO, oneO, allO, nul, cst,
      minL, maxL, pat, fmt, mini, maxi, emin, emax, addP⟩ := o
    simp only [ZTypeDescriptor.const] at hc
    subst hc
    rw [scanObject_mk]
    simp [scanStep, precConst, ZTypeDescriptor.description]

theorem nullable_wrap_behavior_witness :
    accepts permissiveOracle (scanObject descStringNullable) .vnull = true
  ∧ scanObject descConstNullable = .describe (.literal (.vstr "x")) (some "") :=
  ⟨nullable_wrap_behavior.1 permissiveOracle descStringNullable rfl (Or.inl rfl)
      (Or.inl rfl) (Or.inl rfl) rfl,
   nullable_wrap_behavior.2 descConstNullable (.vstr "x") rfl⟩

theorem scanList_eq_map (ds : List ZTypeDescriptor) : scanList ds = ds.map scanObject := by
  induction ds with
  | nil => rfl
  | cons d ds ih => simp [scanList, ih]

/-- zod's `z.tuple`: acceptance is exact length plus pointwise acceptance. -/
theorem tuple_iff_aux (ω : FormatOracle) :
    ∀ (ss : List ZodSchema) (xs : List Value),
      tupleAccepts ω ss xs = true ↔
        xs.length = ss.length ∧ ∀ q ∈ ss.zip xs, accepts ω q.1 q.2 = true := by
  intro ss
  induction ss with
  | nil => intro xs; cases xs <;> simp [tupleAccepts]
  | cons s ss ih =>
      intro xs
      cases xs with
      | nil => simp [tupleAccepts]
      | cons v vs => simp [tupleAccepts, ih vs, and_assoc, and_comm, and_left_comm]

/-! ## C6: the `prefixItems` tuple branch -/

/-- C6: for every descriptor dispatched to the tuple branch (kind `array`,
non-empty `prefixItems`, no earlier precedence branch, `nullable` not truthy)
the compiled validator accepts exactly the arrays whose length equals
`prefixItems.length` with element `i` accepted by the compiled
`prefixItems[i]` — `items`, `minItems` and `maxItems` (arbitrary here) are
ignored; and the spec's concrete example behaves as stated, for every
oracle. -/
theorem tuple_branch_semantics :
    (∀ (ω : FormatOracle) (o : ZTypeDescriptor) (p0 : ZTypeDescriptor)
        (prest : List ZTypeDescriptor),
        o.const = none → emptyBranch o.anyOf → emptyBranch o.oneOf →
        emptyBranch o.allOf → o.type = some "array" →
        o.prefixItems = some (p0 :: prest) → jsTruthy o.nullable = false →
        ∀ v, accepts ω (scanObject o) v = true ↔
          ∃ xs : List Value, v = .varr xs ∧ xs.length = (p0 :: prest).length ∧
            ∀ q ∈ (p0 :: prest).zip xs, accepts ω (scanObject q.1) q.2 = true)
  ∧ (∀ ω, accepts ω (scanObject descTupleSN) (.varr [.vstr "a", .vnum 1]) = true)
  ∧ (∀ ω, accepts ω (scanObject descTupleSN) (.varr [.vstr "a", .vstr "b"]) = false)
  ∧ (∀ ω, accepts ω (scanObject descTupleSN) (.varr [.vstr "a", .vnum 1, .vnum 2])
        = false) := by
  refine ⟨?_, fun ω => rfl, fun ω => rfl, fun ω => rfl⟩
  intro ω o p0 prest hc ha ho hl hty hp hn v
  obtain ⟨ty, dsc, enm, props, itm, minI, maxI, pfx, anyO, oneO, allO, nul, cst,
    minL, maxL, pat, fmt, mini, maxi, emin, emax, addP⟩ := o
  simp only [ZTypeDescriptor.const] at hc
  simp only [ZTypeDescriptor.anyOf, emptyBranch] at ha
  simp only [ZTypeDescriptor.oneOf, emptyBranch] at ho
  simp only [ZTypeDescriptor.allOf, emptyBranch] at hl
  simp only [ZTypeDescriptor.type] at hty
  simp only [ZTypeDescriptor.prefixItems] at hp
  simp only [ZTypeDescriptor.nullable] at hn
  subst hc
  subst hty
  subst hp
  have hscan : scanObject (.mk (some "array") dsc enm props itm minI maxI
      (some (p0 :: prest)) anyO oneO allO nul none minL maxL pat fmt mini maxi emin
      emax addP) = .describe (.tuple (scanObject p0 :: scanList prest))
        (some (jsOrStr dsc "")) := by
    rw [scanObject_mk]
    rcases ha with rfl | rfl <;> rcases ho with rfl | rfl <;> rcases hl with rfl | rfl <;>
      simp [scanStep, precConst, precUnion, precAllOf, scanKind, kindArray,
        applyNullable, hn, scanList]
  rw [hscan]
  cases v
  case varr xs =>
      simp only [accepts]
      rw [tuple_iff_aux ω]
      have hmap : scanObject p0 :: scanList prest = (p0 :: prest).map scanObject := by
        simp [scanList_eq_map]
      rw [hmap, List.zip_map_left]
      simp [List.mem_map]
      intro _
      constructor
      · intro h a b hab
        exact h (scanObject a) b a b hab rfl rfl
      · intro h a b x x1 hx hxa hxb
        subst hxa
        subst hxb
        exact h x x1 hx
  all_goals simp [accepts]

theorem tuple_branch_semantics_witness :
    accepts permissiveOracle (scanObject descTupleSN) (.varr [.vstr "a", .vnum 1]) = true
  ∧ accepts permissiveOracle (scanObject descTupleSN) (.varr [.vstr "a", .vstr "b"])
      = false := by
  constructor
  · exact (tuple_branch_semantics.1 permissiveOracle descTupleSN descStringA [descNumberA]
      rfl (Or.inl rfl) (Or.inl rfl) (Or.inl rfl) rfl rfl rfl
      (.varr [.vstr "a", .vnum 1])).mpr
      ⟨[.vstr "a", .vnum 1], rfl, rfl, by decide⟩
  · exact tuple_branch_semantics.2.2.1 permissiveOracle

end MCPHiveProxy
